import Mathlib

/-!
Shallow embedding of libsoup's `soup-transfer.c` (plus the helper
`soup_substring_index` from `soup-misc.c`).

Bytes are modelled as `Nat` values in 0..255 and byte arrays (`GByteArray`)
as `List Nat`.  Machine integers: `guint` fields are `Nat`; the `gint`
accumulator of `decode_hex` is modelled as a signed 32-bit value (sum
reduced mod 2^32 and reinterpreted in two's complement), since the C code
accumulates `digit << (4*j)` in an `int`.
-/

/-- `soup_substring_index` from soup-misc.c: index of the first occurrence of
`substr` within the first `len` bytes of `str`, or -1.  The C `len` argument
is expressed by passing exactly the searched slice as `str`. -/
def soup_substring_index (str : List Nat) (substr : List Nat) : Int :=
  match (List.range (str.length + 1 - substr.length)).find?
      (fun i => substr.isPrefixOf (str.drop i)) with
  | some i => (i : Int)
  | none => -1

def crlf : List Nat := [13, 10]

def crlfcrlf : List Nat := [13, 10, 13, 10]

/-- The `g_memmove (data + dst, data + src, n)` call inside
`remove_block_at_index`, acting on the whole array. -/
def g_memmove_within (l : List Nat) (dst src n : Nat) : List Nat :=
  l.take dst ++ (l.drop src).take n ++ l.drop (dst + n)

/-- `remove_block_at_index`: memmove the tail over the removed block, then
`g_byte_array_set_size (arr, arr->len - length)`.  The C `g_return_if_fail`
makes `length = 0` a no-op; its `g_assert (arr->len >= offset + length)` is
tracked separately by callers of this model (the C program aborts there). -/
def remove_block_at_index (arr : List Nat) (offset length : Nat) : List Nat :=
  if length = 0 then arr
  else
    (g_memmove_within arr offset (offset + length)
        (arr.length - offset - length)).take (arr.length - length)

/-- C `isdigit` on a byte (ASCII). -/
def c_isdigit (c : Nat) : Bool := 48 ≤ c && c ≤ 57

/-- C `isxdigit` on a byte (ASCII, default locale). -/
def c_isxdigit (c : Nat) : Bool :=
  (48 ≤ c && c ≤ 57) || (65 ≤ c && c ≤ 70) || (97 ≤ c && c ≤ 102)

/-- C `tolower` on a byte (ASCII). -/
def c_tolower (c : Nat) : Nat := if 65 ≤ c && c ≤ 90 then c + 32 else c

/-- Per-digit value as computed in `decode_hex`:
`isdigit (*src) ? *src - 0x30 : tolower (*src) - 0x57`. -/
def hex_digit_val (c : Nat) : Nat :=
  if c_isdigit c then c - 48 else c_tolower c - 87

/-- Reinterpret a natural number as a C `gint` (two's-complement 32-bit). -/
def int32_of_nat (n : Nat) : Int :=
  if n % 4294967296 < 2147483648 then ((n % 4294967296 : Nat) : Int)
  else ((n % 4294967296 : Nat) : Int) - 4294967296

/-- `decode_hex`: count the leading hex digits, convert them to a number
(`new_len += digit << (4*j)` over a C `int`, i.e. the positional value of the
digit string reduced to a signed 32-bit result), and report the digit count
(the `*width` out-parameter). -/
def decode_hex (src : List Nat) : Int × Nat :=
  let ds := src.takeWhile c_isxdigit
  (int32_of_nat (ds.foldl (fun acc c => acc * 16 + hex_digit_val c) 0), ds.length)

/-- `SoupTransferChunkState`: `len` is the remaining length of the current
chunk's data, `idx` the index in the receive buffer where the current chunk's
data begins. -/
structure SoupTransferChunkState where
  len : Nat
  idx : Nat
deriving DecidableEq, Repr

/-- Result of one `decode_chunk` call: the updated state, the compacted
buffer, the `*datalen` out-parameter, the returned terminal-chunk flag, and
whether every `remove_block_at_index` call and the `g_assert (new_len >= 0)`
were in bounds (the C program aborts on a violated assert). -/
structure DecodeChunkResult where
  state : SoupTransferChunkState
  arr : List Nat
  datalen : Nat
  ret : Bool
  asserts_ok : Bool
deriving DecidableEq, Repr

/-- The `while (TRUE)` loop body of `decode_chunk`, fuelled.  Each completed
iteration removes at least one byte from the buffer, so `arr.length + 1`
units of fuel always reach the C loop's `break`. -/
def decode_chunk_loop :
    Nat → SoupTransferChunkState → List Nat → Nat → Bool → Bool → DecodeChunkResult
  | 0, s, arr, datalen, ret, ok => ⟨s, arr, datalen, ret, ok⟩
  | Nat.succ fuel, s, arr, datalen, ret, ok =>
    if arr.length < s.idx + s.len + 5 then ⟨s, arr, datalen, ret, ok⟩
    else
      let hdrSearch : Int :=
        if s.len ≠ 0 then soup_substring_index (arr.drop (s.idx + s.len + 2)) crlf
        else soup_substring_index arr crlf
      if hdrSearch ≤ 0 then ⟨s, arr, datalen, ret, ok⟩
      else
        let ok1 := ok && (decide (s.len = 0) || decide (s.idx + s.len + 2 ≤ arr.length))
        let arr1 := if s.len ≠ 0 then remove_block_at_index arr (s.idx + s.len) 2 else arr
        let hx := decode_hex (arr1.drop (s.idx + s.len))
        let ok2 := ok1 && decide (0 ≤ hx.1)
        let s1 : SoupTransferChunkState := ⟨hx.1.toNat, s.idx + s.len⟩
        let datalen1 := datalen + s.len
        let lenA : Int := (hx.2 : Int) + soup_substring_index (arr1.drop (s1.idx + hx.2)) crlf
        let lenB : Int := if s1.len = 0 then lenA + 2 else lenA
        let ret1 := ret || decide (s1.len = 0)
        let ok3 := ok2 && decide ((s1.idx : Int) + lenB + 2 ≤ (arr1.length : Int))
        let arr2 := remove_block_at_index arr1 s1.idx (lenB + 2).toNat
        decode_chunk_loop fuel s1 arr2 datalen1 ret1 ok3

/-- `decode_chunk`, starting with `*datalen = 0` and `ret = FALSE`. -/
def decode_chunk (s : SoupTransferChunkState) (arr : List Nat) : DecodeChunkResult :=
  decode_chunk_loop (arr.length + 1) s arr 0 false true

/-- `SoupTransferEncoding` from soup-transfer.h. -/
inductive SoupTransferEncoding
  | SOUP_TRANSFER_UNKNOWN
  | SOUP_TRANSFER_CONTENT_LENGTH
  | SOUP_TRANSFER_CHUNKED
deriving DecidableEq, Repr

/-- The `SoupTransferDone` / `SoupTransferStatus` callback verdict. -/
inductive SoupTransferDone
  | SOUP_TRANSFER_CONTINUE
  | SOUP_TRANSFER_END
deriving DecidableEq, Repr

/-- The mutable fields of a `SoupReader` (channel handle and watch tags are
left to the event-source model; callbacks are passed separately). -/
structure SoupReader where
  callback_issued : Bool
  processing : Bool
  recv_buf : List Nat
  header_len : Nat
  overwrite_chunks : Bool
  encoding : SoupTransferEncoding
  content_length : Nat
  chunk_state : SoupTransferChunkState
deriving DecidableEq, Repr

/-- One observable callback invocation on the read side.  `chunk` records the
`length` field of the delivered `SoupDataBuffer` together with the bytes it
points at; `done` records the final buffer without its added NUL. -/
inductive ReadEvent
  | headers_done (hdr : List Nat)
  | chunk (len : Nat) (bytes : List Nat)
  | done (bytes : List Nat)
  | error (body_started : Bool)
deriving DecidableEq, Repr

/-- The reader's callback set.  `headers_done_cb` returns its
`SoupTransferDone` verdict plus the values it stores through the `encoding`
and `content_length` out-pointers; `read_chunk_cb` returns its verdict;
for `read_done_cb` and `error_cb` only presence matters. -/
structure ReadCbs where
  headers_done_cb : Option (List Nat → SoupTransferDone × SoupTransferEncoding × Nat)
  read_chunk_cb : Option (List Nat → SoupTransferDone)
  read_done_cb : Bool
  error_cb : Bool

/-- Result of `issue_chunk_callback`: updated reader, emitted events, and the
`*cancelled` out-parameter (false whenever the callback was not invoked). -/
structure ChunkCbResult where
  reader : SoupReader
  events : List ReadEvent
  cancelled : Bool
deriving Repr

/-- `issue_chunk_callback`: invoke the chunk callback when present and
`len != 0`, flagging `callback_issued`; `*cancelled` reflects a
`SOUP_TRANSFER_END` verdict. -/
def issue_chunk_callback (r : SoupReader) (data : List Nat) (len : Nat)
    (cbs : ReadCbs) : ChunkCbResult :=
  match cbs.read_chunk_cb with
  | some cb =>
    if len ≠ 0 then
      let delivered := data.take len
      let cont := cb delivered
      ⟨{ r with callback_issued := true }, [ReadEvent.chunk len delivered],
        cont = SoupTransferDone.SOUP_TRANSFER_END⟩
    else ⟨r, [], false⟩
  | none => ⟨r, [], false⟩

/-- `issue_final_callback`: NUL-terminate the receive buffer and deliver it
(length excluding the NUL) to the done callback when present. -/
def issue_final_callback (r : SoupReader) (cbs : ReadCbs) :
    SoupReader × List ReadEvent :=
  let r1 : SoupReader := { r with recv_buf := r.recv_buf ++ [0] }
  if cbs.read_done_cb then
    ({ r1 with callback_issued := true }, [ReadEvent.done r1.recv_buf.dropLast])
  else (r1, [])

/-- Result of the reader's event handlers: `reader = some r'` when the watch
stays armed (handler returned TRUE), `none` when the reader was cancelled and
destroyed. -/
structure ReadCbResult where
  reader : Option SoupReader
  events : List ReadEvent
deriving DecidableEq, Repr

/-- `soup_transfer_read_error_cb`: on hangup/error, a reader with `Unknown`
encoding gets a normal final delivery, otherwise the error callback fires
with `body_started = recv_buf->len > header_len`; the reader is cancelled
either way. -/
def soup_transfer_read_error_cb (r : SoupReader) (cbs : ReadCbs) : ReadCbResult :=
  let body_started : Bool := decide (r.header_len < r.recv_buf.length)
  if r.encoding = SoupTransferEncoding.SOUP_TRANSFER_UNKNOWN then
    let fr := issue_final_callback r cbs
    ⟨none, fr.2⟩
  else
    ⟨none, if cbs.error_cb then [ReadEvent.error body_started] else []⟩

/-- Result of one body step (`read_chunk` / `read_content_length` /
`read_unknown`): updated reader, events, the `*cancelled` out-parameter and
the step's boolean return (`read_done`). -/
structure ReadStepResult where
  reader : SoupReader
  events : List ReadEvent
  cancelled : Bool
  read_done : Bool
deriving Repr

/-- `read_chunk`: run the decoder, deliver `[0, idx)` of the buffer when the
pass produced data, and in overwrite mode compact the delivered region away
and reset `idx`. -/
def read_chunk (r : SoupReader) (cbs : ReadCbs) : ReadStepResult :=
  let d := decode_chunk r.chunk_state r.recv_buf
  let r1 : SoupReader := { r with chunk_state := d.state, recv_buf := d.arr }
  if d.datalen = 0 then ⟨r1, [], false, d.ret⟩
  else
    let c := issue_chunk_callback r1 r1.recv_buf r1.chunk_state.idx cbs
    if c.cancelled then ⟨c.reader, c.events, true, d.ret⟩
    else
      let r2 :=
        if c.reader.overwrite_chunks then
          { c.reader with
            recv_buf := remove_block_at_index c.reader.recv_buf 0 c.reader.chunk_state.idx,
            chunk_state := { c.reader.chunk_state with idx := 0 } }
        else c.reader
      ⟨r2, c.events, false, d.ret⟩

/-- `guint` subtraction (wraps modulo 2^32). -/
def guint_sub (a b : Nat) : Nat :=
  (a + 4294967296 - b % 4294967296) % 4294967296

/-- `read_content_length`: deliver the buffered bytes; in overwrite mode
subtract them from `content_length` and empty the buffer; report done when
`content_length == arr->len`. -/
def read_content_length (r : SoupReader) (cbs : ReadCbs) : ReadStepResult :=
  if r.recv_buf.length = 0 then
    ⟨r, [], false, decide (r.content_length = r.recv_buf.length)⟩
  else
    let c := issue_chunk_callback r r.recv_buf r.recv_buf.length cbs
    if c.cancelled then
      ⟨c.reader, c.events, true,
        decide (c.reader.content_length = c.reader.recv_buf.length)⟩
    else
      let r2 :=
        if c.reader.overwrite_chunks then
          { c.reader with
            content_length := guint_sub c.reader.content_length c.reader.recv_buf.length,
            recv_buf := [] }
        else c.reader
      ⟨r2, c.events, false, decide (r2.content_length = r2.recv_buf.length)⟩

/-- `read_unknown`: deliver the buffered bytes, clear them in overwrite mode,
and always report not-done (completion comes from a zero read or hangup). -/
def read_unknown (r : SoupReader) (cbs : ReadCbs) : ReadStepResult :=
  if r.recv_buf.length = 0 then ⟨r, [], false, false⟩
  else
    let c := issue_chunk_callback r r.recv_buf r.recv_buf.length cbs
    if c.cancelled then ⟨c.reader, c.events, true, false⟩
    else
      let r2 := if c.reader.overwrite_chunks then { c.reader with recv_buf := [] } else c.reader
      ⟨r2, c.events, false, false⟩

/-- The `switch (r->encoding)` body dispatch of `soup_transfer_read_cb`. -/
def read_body_step (r : SoupReader) (cbs : ReadCbs) : ReadStepResult :=
  match r.encoding with
  | SoupTransferEncoding.SOUP_TRANSFER_CHUNKED => read_chunk r cbs
  | SoupTransferEncoding.SOUP_TRANSFER_CONTENT_LENGTH => read_content_length r cbs
  | SoupTransferEncoding.SOUP_TRANSFER_UNKNOWN => read_unknown r cbs

/-- Outcome of the `PROCESS_READ` section of `soup_transfer_read_cb`:
either the handler finishes (returns to the loop or cancels), or execution
jumps back to `READ_AGAIN` with `total_read` reset to zero. -/
inductive ProcessOutcome
  | finished (res : ReadCbResult)
  | continue_reading (r : SoupReader) (events : List ReadEvent)

/-- The tail of `PROCESS_READ` after the header block: skip the body step on
a zero-byte pass (`read_done = TRUE`), otherwise run the encoding's body
step; a cancelled or done transfer is finalized and cancelled. -/
def process_body (r : SoupReader) (cbs : ReadCbs) (total_read : Nat)
    (events : List ReadEvent) : ProcessOutcome :=
  if total_read = 0 then
    let fr := issue_final_callback r cbs
    ProcessOutcome.finished ⟨none, events ++ fr.2⟩
  else
    let st := read_body_step r cbs
    if st.cancelled then ProcessOutcome.finished ⟨none, events ++ st.events⟩
    else if st.read_done then
      let fr := issue_final_callback st.reader cbs
      ProcessOutcome.finished ⟨none, events ++ st.events ++ fr.2⟩
    else ProcessOutcome.continue_reading st.reader (events ++ st.events)

/-- The `PROCESS_READ` section: locate and deliver the header block first
(returning TRUE and keeping the watch when `\r\n\r\n` has not arrived, and
cancelling without finalization when the headers callback answers
`SOUP_TRANSFER_END`), then run `process_body`. -/
def process_read (r : SoupReader) (cbs : ReadCbs) (total_read : Nat) : ProcessOutcome :=
  if r.header_len = 0 then
    let index := soup_substring_index r.recv_buf crlfcrlf
    if index < 0 then ProcessOutcome.finished ⟨some r, []⟩
    else
      let idx : Nat := index.toNat + 4
      match cbs.headers_done_cb with
      | some hcb =>
        let hdr := r.recv_buf.take idx
        let res := hcb hdr
        let evs := [ReadEvent.headers_done hdr]
        if res.1 = SoupTransferDone.SOUP_TRANSFER_END then
          ProcessOutcome.finished ⟨none, evs⟩
        else
          let r1 : SoupReader :=
            { r with encoding := res.2.1, content_length := res.2.2,
                     recv_buf := remove_block_at_index r.recv_buf 0 idx,
                     header_len := idx }
          process_body r1 cbs total_read evs
      | none =>
        let r1 : SoupReader :=
          { r with recv_buf := remove_block_at_index r.recv_buf 0 idx,
                   header_len := idx }
        process_body r1 cbs total_read []
  else process_body r cbs total_read []

/-- One outcome of `g_io_channel_read`: `ok bytes` is `G_IO_ERROR_NONE`
filling `bytes` (empty for a zero-byte read), `again` is
`G_IO_ERROR_AGAIN`, `err` any other error value. -/
inductive ReadOutcome
  | ok (bytes : List Nat)
  | again
  | err
deriving DecidableEq, Repr

/-- The `READ_AGAIN` loop of `soup_transfer_read_cb`, driven by a script of
channel outcomes; an exhausted script behaves as `G_IO_ERROR_AGAIN`.
`G_IO_ERROR_AGAIN` and a failing read enter `PROCESS_READ` only when this
handler invocation already accumulated bytes (`total_read != 0`); a
successful read of zero bytes falls into `PROCESS_READ` unconditionally,
and a successful non-empty read appends to the buffer and reads again. -/
def read_loop : List ReadOutcome → Nat → SoupReader → List ReadEvent → ReadCbs → ReadCbResult
  | [], 0, r, evs, _ => ⟨some r, evs⟩
  | [], Nat.succ t, r, evs, cbs =>
    match process_read r cbs (Nat.succ t) with
    | ProcessOutcome.finished res => ⟨res.reader, evs ++ res.events⟩
    | ProcessOutcome.continue_reading r1 evs1 => ⟨some r1, evs ++ evs1⟩
  | ReadOutcome.again :: _, 0, r, evs, _ => ⟨some r, evs⟩
  | ReadOutcome.again :: rest, Nat.succ t, r, evs, cbs =>
    match process_read r cbs (Nat.succ t) with
    | ProcessOutcome.finished res => ⟨res.reader, evs ++ res.events⟩
    | ProcessOutcome.continue_reading r1 evs1 => read_loop rest 0 r1 (evs ++ evs1) cbs
  | ReadOutcome.err :: _, 0, r, evs, cbs =>
    let res := soup_transfer_read_error_cb r cbs
    ⟨res.reader, evs ++ res.events⟩
  | ReadOutcome.err :: rest, Nat.succ t, r, evs, cbs =>
    match process_read r cbs (Nat.succ t) with
    | ProcessOutcome.finished res => ⟨res.reader, evs ++ res.events⟩
    | ProcessOutcome.continue_reading r1 evs1 => read_loop rest 0 r1 (evs ++ evs1) cbs
  | ReadOutcome.ok [] :: rest, total, r, evs, cbs =>
    match process_read r cbs total with
    | ProcessOutcome.finished res => ⟨res.reader, evs ++ res.events⟩
    | ProcessOutcome.continue_reading r1 evs1 => read_loop rest 0 r1 (evs ++ evs1) cbs
  | ReadOutcome.ok (b :: bs) :: rest, total, r, evs, cbs =>
    read_loop rest (total + (b :: bs).length)
      { r with recv_buf := r.recv_buf ++ (b :: bs) } evs cbs

/-- `soup_transfer_read_cb`: one invocation of the readable handler. -/
def soup_transfer_read_cb (r : SoupReader) (cbs : ReadCbs)
    (script : List ReadOutcome) : ReadCbResult :=
  read_loop script 0 r [] cbs

/-- `soup_transfer_read`: the freshly allocated (`g_new0`) reader state. -/
def soup_transfer_read (overwrite_chunks : Bool) : SoupReader :=
  { callback_issued := false, processing := false, recv_buf := [],
    header_len := 0, overwrite_chunks := overwrite_chunks,
    encoding := SoupTransferEncoding.SOUP_TRANSFER_UNKNOWN,
    content_length := 0, chunk_state := ⟨0, 0⟩ }

/-- Observable effects of `soup_transfer_read_cancel` /
`soup_transfer_write_cancel`: which teardown actions ran and the surviving
state (`some` iff the call returned without destroying the handle). -/
structure CancelOutcome (α : Type) where
  watches_removed : Bool
  buffer_struct_freed : Bool
  buffer_data_freed : Bool
  struct_freed : Bool
  state : Option α
deriving DecidableEq, Repr

/-- `soup_transfer_read_cancel`: a no-op while `processing`; otherwise remove
both watches, free the buffer (its data only when no callback borrowed it)
and free the reader. -/
def soup_transfer_read_cancel (r : SoupReader) : CancelOutcome SoupReader :=
  if r.processing then ⟨false, false, false, false, some r⟩
  else ⟨true, true, !r.callback_issued, true, none⟩

/-- The mutable fields of a `SoupWriter`. -/
structure SoupWriter where
  processing : Bool
  encoding : SoupTransferEncoding
  write_buf : List Nat
  header_len : Nat
  headers_done : Bool
  chunk_cnt : Nat
deriving DecidableEq, Repr

/-- `soup_transfer_write_cancel`: a no-op while `processing`; otherwise
remove both watches, free the staging buffer with its data, and free the
writer. -/
def soup_transfer_write_cancel (w : SoupWriter) : CancelOutcome SoupWriter :=
  if w.processing then ⟨false, false, false, false, some w⟩
  else ⟨true, true, true, true, none⟩

/-- Bytes of `g_strdup_printf` with format `%x` (lowercase hex, minimal
width). -/
def hex_bytes (n : Nat) : List Nat := (Nat.toDigits 16 n).map Char.toNat

/-- `write_chunk_sep`: for a non-empty chunk append the hex length line
(with a leading CRLF unless `first_chunk`), otherwise append the terminator
bytes `"\r\n0\r\n"`. -/
def write_chunk_sep (arr : List Nat) (len : Nat) (first_chunk : Bool) : List Nat :=
  if len ≠ 0 then
    if first_chunk then arr ++ hex_bytes len ++ [13, 10]
    else arr ++ [13, 10] ++ hex_bytes len ++ [13, 10]
  else arr ++ [13, 10, 48, 13, 10]

/-- `write_chunk`: in chunked mode prepend a separator — the C call passes
`w->chunk_cnt` itself as the `first_chunk` boolean, so it is truthy exactly
when `chunk_cnt != 0` — then append the body and bump `chunk_cnt`. -/
def write_chunk (w : SoupWriter) (body : List Nat) : SoupWriter :=
  let w1 :=
    if w.encoding = SoupTransferEncoding.SOUP_TRANSFER_CHUNKED then
      { w with write_buf := write_chunk_sep w.write_buf body.length (w.chunk_cnt ≠ 0),
               chunk_cnt := w.chunk_cnt + 1 }
    else w
  { w1 with write_buf := w1.write_buf ++ body }

/-- One observable callback invocation on the write side. -/
inductive WriteEvent
  | headers_done
  | done
  | error (headers_done : Bool)
deriving DecidableEq, Repr

/-- One outcome of `g_io_channel_write`: `ok n` is `G_IO_ERROR_NONE` with up
to `n` bytes accepted, `again` is `G_IO_ERROR_AGAIN`, `err` any failure. -/
inductive WriteOutcome
  | ok (n : Nat)
  | again
  | err
deriving DecidableEq, Repr

/-- Result of one `soup_transfer_write_cb` invocation: surviving writer with
the unconsumed producer/channel scripts when the handler returned TRUE,
the bytes the channel accepted, the emitted events, and the staging-buffer
contents freed at destruction (empty while the writer is alive). -/
structure WriteRunResult where
  writer : Option SoupWriter
  prod_rest : List (List Nat × SoupTransferDone)
  chan_rest : List WriteOutcome
  written : List Nat
  events : List WriteEvent
  freed_buf : List Nat
deriving Repr

/-- Presence flags of the writer's done/error callbacks (`headers_done_cb`,
`write_done_cb`, `error_cb`); the chunk producer is modelled as a script. -/
structure WriteCbs where
  headers_done_cb : Bool
  write_done_cb : Bool
  error_cb : Bool
deriving DecidableEq, Repr

/-- The writer teardown path at natural completion: fire `write_done_cb`
and cancel (freeing whatever is still in the staging buffer). -/
def write_finish (w : SoupWriter) (cbs : WriteCbs) (chan : List WriteOutcome)
    (written : List Nat) (events : List WriteEvent) : WriteRunResult :=
  ⟨none, [], chan, written,
    events ++ (if cbs.write_done_cb then [WriteEvent.done] else []), w.write_buf⟩

/-- `soup_transfer_write_error_cb`: fire the error callback with the current
`headers_done` flag and cancel the writer. -/
def soup_transfer_write_error_cb (w : SoupWriter) (cbs : WriteCbs)
    (chan : List WriteOutcome) (written : List Nat) (events : List WriteEvent) :
    WriteRunResult :=
  ⟨none, [], chan, written,
    events ++ (if cbs.error_cb then [WriteEvent.error w.headers_done] else []),
    w.write_buf⟩

/-- `soup_transfer_write_cb`: drain the staging buffer (`WRITE_AGAIN` loop),
firing the headers-done callback the first time a single write's
`bytes_written >= header_len` while `!headers_done`; with an empty buffer
ask the producer script for the next chunk (`has_cb` mirrors a non-NULL
`write_chunk_cb`; an exhausted script answers NULL + `SOUP_TRANSFER_END`),
frame and restage non-empty chunks, and on `SOUP_TRANSFER_END` append the
chunked terminator and finish.  An exhausted channel script behaves as
`G_IO_ERROR_AGAIN` (`TRY_AGAIN`). -/
def soup_transfer_write_cb_loop : Nat → SoupWriter → WriteCbs → Bool →
    List (List Nat × SoupTransferDone) → List WriteOutcome →
    List Nat → List WriteEvent → WriteRunResult
  | 0, w, _, _, prod, chan, written, events => ⟨some w, prod, chan, written, events, []⟩
  | Nat.succ fuel, w, cbs, has_cb, prod, chan, written, events =>
    if w.write_buf.length ≠ 0 then
      match chan with
      | [] => ⟨some w, prod, [], written, events, []⟩
      | WriteOutcome.again :: rest => ⟨some w, prod, rest, written, events, []⟩
      | WriteOutcome.err :: rest => soup_transfer_write_error_cb w cbs rest written events
      | WriteOutcome.ok n :: rest =>
        let bw := min n w.write_buf.length
        if bw = 0 then ⟨some w, prod, rest, written, events, []⟩
        else
          let fire := !w.headers_done && decide (w.header_len ≤ bw)
          let w1 : SoupWriter :=
            { w with headers_done := w.headers_done || fire,
                     write_buf := remove_block_at_index w.write_buf 0 bw }
          soup_transfer_write_cb_loop fuel w1 cbs has_cb prod rest
            (written ++ w.write_buf.take bw)
            (events ++ (if fire && cbs.headers_done_cb then [WriteEvent.headers_done] else []))
    else
      if has_cb then
        match prod with
        | (body, st) :: prest =>
          if body.length ≠ 0 then
            soup_transfer_write_cb_loop fuel (write_chunk w body) cbs has_cb prest chan
              written events
          else if st = SoupTransferDone.SOUP_TRANSFER_CONTINUE then
            ⟨some w, prest, chan, written, events, []⟩
          else
            let w1 :=
              if w.encoding = SoupTransferEncoding.SOUP_TRANSFER_CHUNKED then
                { w with write_buf := write_chunk_sep w.write_buf 0 (w.chunk_cnt ≠ 0) }
              else w
            write_finish w1 cbs chan written events
        | [] =>
          let w1 :=
            if w.encoding = SoupTransferEncoding.SOUP_TRANSFER_CHUNKED then
              { w with write_buf := write_chunk_sep w.write_buf 0 (w.chunk_cnt ≠ 0) }
            else w
          write_finish w1 cbs chan written events
      else write_finish w cbs chan written events

/-- One invocation of the writable handler.  Every recursive step of the
`WRITE_AGAIN` loop consumes a channel outcome or a producer item, so
`prod.length + chan.length + 1` units of fuel always reach one of the C
function's returns. -/
def soup_transfer_write_cb (w : SoupWriter) (cbs : WriteCbs) (has_cb : Bool)
    (prod : List (List Nat × SoupTransferDone)) (chan : List WriteOutcome)
    (written : List Nat) (events : List WriteEvent) : WriteRunResult :=
  soup_transfer_write_cb_loop (prod.length + chan.length + 1) w cbs has_cb prod chan
    written events

/-- `soup_transfer_write`: build the writer (`g_new0`), stage the header
bytes and the optional initial body, and make the initial producer call when
a chunk callback is registered; returns the writer, whether the chunk
callback is still set, and the unconsumed producer script. -/
def soup_transfer_write_entry (header : List Nat) (src : Option (List Nat))
    (encoding : SoupTransferEncoding)
    (prod : Option (List (List Nat × SoupTransferDone))) :
    SoupWriter × Bool × List (List Nat × SoupTransferDone) :=
  let w : SoupWriter :=
    { processing := false, encoding := encoding, write_buf := [],
      header_len := 0, headers_done := false, chunk_cnt := 0 }
  let w :=
    if header.length ≠ 0 then
      { w with write_buf := header, header_len := header.length }
    else w
  let w :=
    match src with
    | some b => if b.length ≠ 0 then write_chunk w b else w
    | none => w
  match prod with
  | none => (w, false, [])
  | some ps =>
    match ps with
    | [] =>
      let w1 :=
        if w.encoding = SoupTransferEncoding.SOUP_TRANSFER_CHUNKED then
          { w with write_buf := write_chunk_sep w.write_buf 0 (w.chunk_cnt ≠ 0) }
        else w
      (w1, false, [])
    | (body, st) :: rest =>
      let w1 := if body.length ≠ 0 then write_chunk w body else w
      if st = SoupTransferDone.SOUP_TRANSFER_END then
        let w2 :=
          if w1.encoding = SoupTransferEncoding.SOUP_TRANSFER_CHUNKED then
            { w1 with write_buf := write_chunk_sep w1.write_buf 0 (w1.chunk_cnt ≠ 0) }
          else w1
        (w2, false, rest)
      else (w1, true, rest)

/-- A full writer transfer: `soup_transfer_write` followed by one writable
event (`soup_transfer_write_cb`). -/
def soup_transfer_write_run (header : List Nat) (src : Option (List Nat))
    (encoding : SoupTransferEncoding) (cbs : WriteCbs)
    (prod : Option (List (List Nat × SoupTransferDone)))
    (chan : List WriteOutcome) : WriteRunResult :=
  match soup_transfer_write_entry header src encoding prod with
  | (w, has_cb, prest) => soup_transfer_write_cb w cbs has_cb prest chan [] []

/-- The raw chunked stream `"1\r\nX\r\n0\r\n\r\n"` (one one-byte chunk `X`
followed by the terminating zero chunk) used as C2's failing input. -/
def c2_stream : List Nat := [49, 13, 10, 88, 13, 10, 48, 13, 10, 13, 10]

/-- A content-length reader that has delivered its headers (19 bytes) and
buffered 2 of 5 expected body bytes. -/
def c3_reader : SoupReader :=
  { callback_issued := false, processing := false, recv_buf := [97, 98],
    header_len := 19, overwrite_chunks := false,
    encoding := SoupTransferEncoding.SOUP_TRANSFER_CONTENT_LENGTH,
    content_length := 5, chunk_state := ⟨0, 0⟩ }

/-- A full callback set answering `Continue` everywhere and declaring
content-length 5. -/
def c3_cbs : ReadCbs :=
  ⟨some (fun _ => (SoupTransferDone.SOUP_TRANSFER_CONTINUE,
      SoupTransferEncoding.SOUP_TRANSFER_CONTENT_LENGTH, 5)),
   some (fun _ => SoupTransferDone.SOUP_TRANSFER_CONTINUE), true, true⟩

/-- A chunked reader with delivered headers and a buffered body prefix,
used to witness the zero-byte-read final delivery. -/
def c3w_reader : SoupReader :=
  { callback_issued := false, processing := false, recv_buf := [104, 105],
    header_len := 7, overwrite_chunks := false,
    encoding := SoupTransferEncoding.SOUP_TRANSFER_CHUNKED,
    content_length := 0, chunk_state := ⟨0, 0⟩ }

/-- A chunked reader with delivered headers whose buffer extends past the
header length, used to witness the error-callback argument. -/
def c5_reader : SoupReader :=
  { callback_issued := false, processing := false, recv_buf := [104, 105, 106, 107, 108],
    header_len := 4, overwrite_chunks := false,
    encoding := SoupTransferEncoding.SOUP_TRANSFER_CHUNKED,
    content_length := 0, chunk_state := ⟨0, 0⟩ }

/-- A callback set declaring `ContentLength(0)` at the headers boundary. -/
def c6_cbs : ReadCbs :=
  ⟨some (fun _ => (SoupTransferDone.SOUP_TRANSFER_CONTINUE,
      SoupTransferEncoding.SOUP_TRANSFER_CONTENT_LENGTH, 0)),
   some (fun _ => SoupTransferDone.SOUP_TRANSFER_CONTINUE), true, true⟩

/-- A reader marked as being inside one of its own callbacks. -/
def c8_reader : SoupReader :=
  { callback_issued := false, processing := true, recv_buf := [1, 2, 3],
    header_len := 4, overwrite_chunks := false,
    encoding := SoupTransferEncoding.SOUP_TRANSFER_CHUNKED,
    content_length := 0, chunk_state := ⟨2, 1⟩ }

/-- A writer marked as being inside one of its own callbacks. -/
def c8_writer : SoupWriter :=
  { processing := true, encoding := SoupTransferEncoding.SOUP_TRANSFER_CHUNKED,
    write_buf := [1, 2], header_len := 2, headers_done := false, chunk_cnt := 1 }

/-- True when no `chunk` event in the trace carries a zero `length`. -/
def chunk_events_nonzero (evs : List ReadEvent) : Bool :=
  evs.all (fun e => match e with
    | ReadEvent.chunk len _ => decide (len ≠ 0)
    | _ => true)

/-- C1: for a writer created with Chunked encoding, header bytes `"H"` and a
producer yielding `"hi"` then an empty buffer with End, the claim expects the
channel to receive `"H" ++ "2\r\nhi" ++ "\r\n" ++ "0\r\n\r\n"`.  The code
instead (a) frames the FIRST chunk with a leading CRLF, because
`write_chunk` passes `chunk_cnt` itself (0 for the first chunk) as the
`first_chunk` flag, and (b) appends the terminator `"\r\n0\r\n"` to the
staging buffer after the producer's End but then falls through to
`write_done_cb` and `soup_transfer_write_cancel` without draining it, so the
channel receives only `"H\r\n2\r\nhi"` and the terminator is freed with the
buffer. -/
theorem c1_writer_chunked_failing_run :
    (soup_transfer_write_run [72] none SoupTransferEncoding.SOUP_TRANSFER_CHUNKED
        ⟨true, true, true⟩
        (some [([104, 105], SoupTransferDone.SOUP_TRANSFER_CONTINUE),
               ([], SoupTransferDone.SOUP_TRANSFER_END)])
        [WriteOutcome.ok 100, WriteOutcome.ok 100, WriteOutcome.ok 100]).written
      = [72] ++ [13, 10] ++ [50, 13, 10] ++ [104, 105] ∧
    (soup_transfer_write_run [72] none SoupTransferEncoding.SOUP_TRANSFER_CHUNKED
        ⟨true, true, true⟩
        (some [([104, 105], SoupTransferDone.SOUP_TRANSFER_CONTINUE),
               ([], SoupTransferDone.SOUP_TRANSFER_END)])
        [WriteOutcome.ok 100, WriteOutcome.ok 100, WriteOutcome.ok 100]).writer = none ∧
    (soup_transfer_write_run [72] none SoupTransferEncoding.SOUP_TRANSFER_CHUNKED
        ⟨true, true, true⟩
        (some [([104, 105], SoupTransferDone.SOUP_TRANSFER_CONTINUE),
               ([], SoupTransferDone.SOUP_TRANSFER_END)])
        [WriteOutcome.ok 100, WriteOutcome.ok 100, WriteOutcome.ok 100]).freed_buf
      = [13, 10, 48, 13, 10] ∧
    (soup_transfer_write_run [72] none SoupTransferEncoding.SOUP_TRANSFER_CHUNKED
        ⟨true, true, true⟩
        (some [([104, 105], SoupTransferDone.SOUP_TRANSFER_CONTINUE),
               ([], SoupTransferDone.SOUP_TRANSFER_END)])
        [WriteOutcome.ok 100, WriteOutcome.ok 100, WriteOutcome.ok 100]).written
      ≠ [72] ++ [50, 13, 10] ++ [104, 105] ++ [13, 10] ++ [48, 13, 10, 13, 10] := by
  decide

/-- C2: decoding the well-formed chunked stream `"1\r\nX\r\n0\r\n\r\n"` in
one pass leaves buffer `"X"` with every `remove_block_at_index` call in
bounds, but decoding the first 9 bytes and then the final `"\r\n"` in a
second pass processes the terminal chunk early, calls
`remove_block_at_index` with `offset + length = 6 > arr.len = 4` (violating
its `g_assert`), and ends with a different final buffer — refuting the claim
that every partition yields the same final buffer contents. -/
theorem c2_decode_chunk_partition_divergence :
    (decode_chunk ⟨0, 0⟩ c2_stream).arr = [88] ∧
    (decode_chunk ⟨0, 0⟩ c2_stream).asserts_ok = true ∧
    (decode_chunk ⟨0, 0⟩ c2_stream).datalen = 1 ∧
    (decode_chunk ⟨0, 0⟩ c2_stream).ret = true ∧
    (decode_chunk ⟨0, 0⟩ (c2_stream.take 9)).asserts_ok = false ∧
    (decode_chunk ⟨0, 0⟩ (c2_stream.take 9)).ret = true ∧
    (decode_chunk (decode_chunk ⟨0, 0⟩ (c2_stream.take 9)).state
        ((decode_chunk ⟨0, 0⟩ (c2_stream.take 9)).arr ++ c2_stream.drop 9)).arr
      = [13, 10] ∧
    (decode_chunk (decode_chunk ⟨0, 0⟩ (c2_stream.take 9)).state
        ((decode_chunk ⟨0, 0⟩ (c2_stream.take 9)).arr ++ c2_stream.drop 9)).arr
      ≠ (decode_chunk ⟨0, 0⟩ c2_stream).arr := by
  decide

/-- C4: with a 10-byte header and a channel that accepts 6 then 4 bytes, the
cumulative drained bytes reach `header_len` at the second drain step, yet
the completed transfer emits no headers-done event at all: the code compares
each single write's `bytes_written` against `header_len` instead of the
cumulative count. -/
theorem c4_headers_done_never_fires_on_split_writes :
    (soup_transfer_write_run (List.replicate 10 72) none
        SoupTransferEncoding.SOUP_TRANSFER_CONTENT_LENGTH ⟨true, true, true⟩ none
        [WriteOutcome.ok 6, WriteOutcome.ok 4]).written = List.replicate 10 72 ∧
    (soup_transfer_write_run (List.replicate 10 72) none
        SoupTransferEncoding.SOUP_TRANSFER_CONTENT_LENGTH ⟨true, true, true⟩ none
        [WriteOutcome.ok 6, WriteOutcome.ok 4]).writer = none ∧
    (soup_transfer_write_run (List.replicate 10 72) none
        SoupTransferEncoding.SOUP_TRANSFER_CONTENT_LENGTH ⟨true, true, true⟩ none
        [WriteOutcome.ok 6, WriteOutcome.ok 4]).events = [WriteEvent.done] ∧
    WriteEvent.headers_done ∉
      (soup_transfer_write_run (List.replicate 10 72) none
        SoupTransferEncoding.SOUP_TRANSFER_CONTENT_LENGTH ⟨true, true, true⟩ none
        [WriteOutcome.ok 6, WriteOutcome.ok 4]).events := by
  decide

/-- C3 counterexample: on a content-length reader with a partial body, a
successful zero-byte channel read triggers the normal final delivery (done
callback) and never reaches the error callback, whereas a hangup readiness
event on the same reader fires the error callback — so the zero-byte read is
not handled identically to hangup, contradicting the claim that for
non-Unknown encodings it is treated as an error. -/
theorem c3_zero_read_differs_from_hangup :
    (soup_transfer_read_cb c3_reader c3_cbs [ReadOutcome.ok []]).events
      = [ReadEvent.done [97, 98]] ∧
    (soup_transfer_read_error_cb c3_reader c3_cbs).events
      = [ReadEvent.error false] ∧
    (soup_transfer_read_cb c3_reader c3_cbs [ReadOutcome.ok []]).events
      ≠ (soup_transfer_read_error_cb c3_reader c3_cbs).events := by
  decide

/-- C7 counterexample: the byte string `"ffffffff;"` starts with 8 hex
digits of value 4294967295, but `decode_hex` accumulates into a C `int`, so
it returns -1 rather than the integer value of the digits — refuting the
claim for arbitrary widths. -/
theorem c7_decode_hex_overflow :
    decode_hex [102, 102, 102, 102, 102, 102, 102, 102, 59] = (-1, 8) ∧
    (-1 : Int) ≠ (4294967295 : Int) := by
  decide

/-- C8: cancelling a reader or writer whose `processing` flag is set returns
immediately: no watch is removed, neither the buffer structure nor its data
is freed, the handle is not freed, and the state survives unchanged. -/
theorem c8_cancel_noop_while_processing (r : SoupReader) (w : SoupWriter)
    (hr : r.processing = true) (hw : w.processing = true) :
    soup_transfer_read_cancel r = ⟨false, false, false, false, some r⟩ ∧
    soup_transfer_write_cancel w = ⟨false, false, false, false, some w⟩ := by
  constructor
  · unfold soup_transfer_read_cancel
    rw [if_pos hr]
  · unfold soup_transfer_write_cancel
    rw [if_pos hw]

/-- C8 witness: the no-op cancel evaluated on concrete in-callback handles. -/
theorem c8_cancel_noop_while_processing_witness :
    soup_transfer_read_cancel c8_reader = ⟨false, false, false, false, some c8_reader⟩ ∧
    soup_transfer_write_cancel c8_writer = ⟨false, false, false, false, some c8_writer⟩ :=
  c8_cancel_noop_while_processing c8_reader c8_writer rfl rfl

/-- Hex digit value as the claim states it: the digit's value in a
case-insensitive hexadecimal numeral. -/
def hex_digit_value_spec (c : Nat) : Nat :=
  if 48 ≤ c ∧ c ≤ 57 then c - 48
  else if 97 ≤ c ∧ c ≤ 102 then c - 97 + 10
  else if 65 ≤ c ∧ c ≤ 70 then c - 65 + 10
  else 0

/-- The integer value of a digit string read as a hexadecimal numeral. -/
def hex_value_spec (ds : List Nat) : Nat :=
  ds.foldl (fun a c => a * 16 + hex_digit_value_spec c) 0

theorem hex_digit_val_eq_spec (c : Nat) (h : c_isxdigit c = true) :
    hex_digit_val c = hex_digit_value_spec c := by
  simp only [c_isxdigit, Bool.or_eq_true, Bool.and_eq_true, decide_eq_true_eq] at h
  simp only [hex_digit_val, hex_digit_value_spec, c_isdigit, c_tolower,
    Bool.and_eq_true, decide_eq_true_eq]
  split_ifs <;> omega

theorem foldl_hex_val_eq_spec (ds : List Nat) (h : ∀ c ∈ ds, c_isxdigit c = true) :
    ∀ a : Nat, ds.foldl (fun acc c => acc * 16 + hex_digit_val c) a
      = ds.foldl (fun acc c => acc * 16 + hex_digit_value_spec c) a := by
  induction ds with
  | nil => intro a; rfl
  | cons c cs ih =>
    intro a
    simp only [List.foldl_cons]
    rw [hex_digit_val_eq_spec c (h c (by simp))]
    exact ih (fun d hd => h d (by simp [hd])) _

theorem takeWhile_append_all (p : Nat → Bool) (ds : List Nat) (c : Nat)
    (rest : List Nat) (h1 : ∀ d ∈ ds, p d = true) (h2 : p c = false) :
    (ds ++ c :: rest).takeWhile p = ds := by
  induction ds with
  | nil => simp [List.takeWhile_cons, h2]
  | cons d ds ih =>
    simp only [List.cons_append, List.takeWhile_cons, h1 d (by simp)]
    simp [ih (fun x hx => h1 x (by simp [hx]))]

theorem int32_of_nat_small (n : Nat) (h : n < 2147483648) :
    int32_of_nat n = (n : Int) := by
  unfold int32_of_nat
  rw [Nat.mod_eq_of_lt (by omega)]
  rw [if_pos h]

/-- C7 amended: for a byte string beginning with k hex digits (any case)
followed by a non-hex byte, and whose numeral value fits a signed 32-bit
`gint` (value < 2^31), `decode_hex` returns that value and stores k in its
width out-parameter; wider values are reduced mod 2^32 and reinterpreted as
signed, as the counterexample shows. -/
theorem c7_decode_hex_amended (ds : List Nat) (c : Nat) (rest : List Nat)
    (hk : ds ≠ []) (hds : ∀ d ∈ ds, c_isxdigit d = true)
    (hc : c_isxdigit c = false) (hv : hex_value_spec ds < 2147483648) :
    decode_hex (ds ++ c :: rest) = ((hex_value_spec ds : Int), ds.length) := by
  have _ := hk
  unfold decode_hex
  simp only [takeWhile_append_all c_isxdigit ds c rest hds hc]
  rw [foldl_hex_val_eq_spec ds hds 0]
  have hfold : List.foldl (fun acc c => acc * 16 + hex_digit_value_spec c) 0 ds
      = hex_value_spec ds := rfl
  rw [hfold, int32_of_nat_small _ hv]

/-- C7 witness: `decode_hex "aB3;"` is 0xaB3 = 2739 with width 3. -/
theorem c7_decode_hex_amended_witness :
    decode_hex [97, 66, 51, 59] = ((2739 : Int), 3) := by
  have h := c7_decode_hex_amended [97, 66, 51] 59 [] (by decide) (by decide)
    (by decide) (by decide)
  have e : hex_value_spec [97, 66, 51] = 2739 := by decide
  rw [e] at h
  exact h

/-- C10: for a non-zero length with `offset + length ≤ arr.len`,
`remove_block_at_index` (modelled by its memmove-and-truncate mechanics)
yields the first `offset` bytes followed by the bytes from
`offset + length` onward, shrinking the array by exactly `length`. -/
theorem c10_remove_block_spec (arr : List Nat) (offset length : Nat)
    (h1 : length ≠ 0) (h2 : offset + length ≤ arr.length) :
    remove_block_at_index arr offset length
      = arr.take offset ++ arr.drop (offset + length) ∧
    (remove_block_at_index arr offset length).length = arr.length - length := by
  have hmain : remove_block_at_index arr offset length
      = arr.take offset ++ arr.drop (offset + length) := by
    unfold remove_block_at_index g_memmove_within
    rw [if_neg h1]
    have hdl : (arr.drop (offset + length)).length = arr.length - offset - length := by
      rw [List.length_drop]; omega
    rw [List.take_of_length_le (le_of_eq hdl)]
    have hlen : (arr.take offset ++ arr.drop (offset + length)).length
        = arr.length - length := by
      rw [List.length_append, List.length_take, List.length_drop]
      omega
    rw [List.take_append_eq_append_take,
        List.take_of_length_le (le_of_eq hlen), hlen, Nat.sub_self, List.take_zero,
        List.append_nil]
  refine ⟨hmain, ?_⟩
  rw [hmain, List.length_append, List.length_take, List.length_drop]
  omega

/-- C10 witness: removing 2 bytes at offset 1 from a 5-byte array. -/
theorem c10_remove_block_spec_witness :
    remove_block_at_index [1, 2, 3, 4, 5] 1 2 = [1, 4, 5] := by
  have h := (c10_remove_block_spec [1, 2, 3, 4, 5] 1 2 (by decide) (by decide)).1
  rw [h]
  rfl

/-- C3 amended: a successful zero-byte channel read, once the headers have
been delivered (`header_len > 0`), makes the handler skip the body step
(`read_done = TRUE`) and perform the normal final delivery followed by
teardown, for every encoding; it is never routed to the error callback. -/
theorem c3_zero_read_final_delivery (r : SoupReader) (cbs : ReadCbs)
    (h1 : 0 < r.header_len) (h2 : cbs.read_done_cb = true) :
    soup_transfer_read_cb r cbs [ReadOutcome.ok []]
      = ⟨none, [ReadEvent.done r.recv_buf]⟩ := by
  have hne : r.header_len ≠ 0 := by omega
  simp [soup_transfer_read_cb, read_loop, process_read, process_body,
        issue_final_callback, hne, h2, List.dropLast_concat]

/-- C3 amended witness: a chunked reader with buffered bytes finishes with a
done delivery on a zero-byte read. -/
theorem c3_zero_read_final_delivery_witness :
    soup_transfer_read_cb c3w_reader c3_cbs [ReadOutcome.ok []]
      = ⟨none, [ReadEvent.done [104, 105]]⟩ :=
  c3_zero_read_final_delivery c3w_reader c3_cbs (by decide) (by decide)

/-- The surviving reader of a `PROCESS_READ` outcome (the reader a later
handler invocation would run on). -/
def outcome_reader : ProcessOutcome → Option SoupReader
  | ProcessOutcome.finished res => res.reader
  | ProcessOutcome.continue_reading r _ => some r

/-- The events of a `PROCESS_READ` outcome. -/
def outcome_events : ProcessOutcome → List ReadEvent
  | ProcessOutcome.finished res => res.events
  | ProcessOutcome.continue_reading _ evs => evs

/-- Reachability invariant of a reader: a non-Unknown encoding is only ever
installed by the headers block, which also sets `header_len` positive. -/
def ReaderInv (r : SoupReader) : Prop :=
  r.encoding ≠ SoupTransferEncoding.SOUP_TRANSFER_UNKNOWN → 0 < r.header_len

theorem reader_inv_init (oc : Bool) : ReaderInv (soup_transfer_read oc) :=
  fun h => absurd rfl h

theorem reader_inv_set_buf (r : SoupReader) (buf : List Nat) (h : ReaderInv r) :
    ReaderInv { r with recv_buf := buf } :=
  fun henc => h henc

theorem issue_chunk_callback_fields (r : SoupReader) (data : List Nat) (len : Nat)
    (cbs : ReadCbs) :
    (issue_chunk_callback r data len cbs).reader.header_len = r.header_len ∧
    (issue_chunk_callback r data len cbs).reader.encoding = r.encoding ∧
    (issue_chunk_callback r data len cbs).reader.overwrite_chunks = r.overwrite_chunks := by
  unfold issue_chunk_callback
  cases cbs.read_chunk_cb with
  | none => simp
  | some cb =>
    by_cases hl : len ≠ 0
    · simp [hl]
    · simp [hl]

theorem read_unknown_fields (r : SoupReader) (cbs : ReadCbs) :
    (read_unknown r cbs).reader.header_len = r.header_len ∧
    (read_unknown r cbs).reader.encoding = r.encoding := by
  obtain ⟨hf1, hf2, hf3⟩ := issue_chunk_callback_fields r r.recv_buf r.recv_buf.length cbs
  unfold read_unknown
  by_cases h0 : r.recv_buf.length = 0
  · simp [h0]
  · by_cases hc : (issue_chunk_callback r r.recv_buf r.recv_buf.length cbs).cancelled = true
    · simp [h0, hc, hf1, hf2]
    · by_cases ho : (issue_chunk_callback r r.recv_buf r.recv_buf.length cbs).reader.overwrite_chunks = true
      · simp [h0, hc, ho, hf1, hf2]
      · simp [h0, hc, ho, hf1, hf2]

theorem read_content_length_fields (r : SoupReader) (cbs : ReadCbs) :
    (read_content_length r cbs).reader.header_len = r.header_len ∧
    (read_content_length r cbs).reader.encoding = r.encoding := by
  obtain ⟨hf1, hf2, hf3⟩ := issue_chunk_callback_fields r r.recv_buf r.recv_buf.length cbs
  unfold read_content_length
  by_cases h0 : r.recv_buf.length = 0
  · simp [h0]
  · by_cases hc : (issue_chunk_callback r r.recv_buf r.recv_buf.length cbs).cancelled = true
    · simp [h0, hc, hf1, hf2]
    · by_cases ho : (issue_chunk_callback r r.recv_buf r.recv_buf.length cbs).reader.overwrite_chunks = true
      · simp [h0, hc, ho, hf1, hf2]
      · simp [h0, hc, ho, hf1, hf2]

theorem read_chunk_fields (r : SoupReader) (cbs : ReadCbs) :
    (read_chunk r cbs).reader.header_len = r.header_len ∧
    (read_chunk r cbs).reader.encoding = r.encoding := by
  obtain ⟨hf1, hf2, hf3⟩ := issue_chunk_callback_fields
      { r with chunk_state := (decode_chunk r.chunk_state r.recv_buf).state,
               recv_buf := (decode_chunk r.chunk_state r.recv_buf).arr }
      (decode_chunk r.chunk_state r.recv_buf).arr
      (decode_chunk r.chunk_state r.recv_buf).state.idx cbs
  unfold read_chunk
  by_cases h0 : (decode_chunk r.chunk_state r.recv_buf).datalen = 0
  · simp [h0]
  · by_cases hc : (issue_chunk_callback
        { r with chunk_state := (decode_chunk r.chunk_state r.recv_buf).state,
                 recv_buf := (decode_chunk r.chunk_state r.recv_buf).arr }
        (decode_chunk r.chunk_state r.recv_buf).arr
        (decode_chunk r.chunk_state r.recv_buf).state.idx cbs).cancelled = true
    · simp only at hf1 hf2
      simp [h0, hc, hf1, hf2]
    · by_cases ho : (issue_chunk_callback
          { r with chunk_state := (decode_chunk r.chunk_state r.recv_buf).state,
                   recv_buf := (decode_chunk r.chunk_state r.recv_buf).arr }
          (decode_chunk r.chunk_state r.recv_buf).arr
          (decode_chunk r.chunk_state r.recv_buf).state.idx cbs).reader.overwrite_chunks = true
      · simp only at hf1 hf2
        simp [h0, hc, ho, hf1, hf2]
      · simp only at hf1 hf2
        simp [h0, hc, ho, hf1, hf2]

theorem read_body_step_fields (r : SoupReader) (cbs : ReadCbs) :
    (read_body_step r cbs).reader.header_len = r.header_len ∧
    (read_body_step r cbs).reader.encoding = r.encoding := by
  cases henc : r.encoding with
  | SOUP_TRANSFER_UNKNOWN =>
    have he : read_body_step r cbs = read_unknown r cbs := by
      unfold read_body_step; rw [henc]
    rw [he]
    exact ⟨(read_unknown_fields r cbs).1, (read_unknown_fields r cbs).2.trans henc⟩
  | SOUP_TRANSFER_CONTENT_LENGTH =>
    have he : read_body_step r cbs = read_content_length r cbs := by
      unfold read_body_step; rw [henc]
    rw [he]
    exact ⟨(read_content_length_fields r cbs).1,
      (read_content_length_fields r cbs).2.trans henc⟩
  | SOUP_TRANSFER_CHUNKED =>
    have he : read_body_step r cbs = read_chunk r cbs := by
      unfold read_body_step; rw [henc]
    rw [he]
    exact ⟨(read_chunk_fields r cbs).1, (read_chunk_fields r cbs).2.trans henc⟩

theorem read_body_step_inv (r : SoupReader) (cbs : ReadCbs) (h : ReaderInv r) :
    ReaderInv (read_body_step r cbs).reader := by
  obtain ⟨h1, h2⟩ := read_body_step_fields r cbs
  intro henc
  rw [h1]
  exact h (by rw [← h2]; exact henc)

theorem process_body_inv (r : SoupReader) (cbs : ReadCbs) (total : Nat)
    (evs : List ReadEvent) (h : ReaderInv r) (r' : SoupReader)
    (h2 : outcome_reader (process_body r cbs total evs) = some r') : ReaderInv r' := by
  by_cases ht : total = 0
  · have h2' : (none : Option SoupReader) = some r' := by
      have he : process_body r cbs total evs
          = ProcessOutcome.finished ⟨none, evs ++ (issue_final_callback r cbs).2⟩ := by
        unfold process_body; rw [if_pos ht]
      rw [he] at h2
      exact h2
    exact absurd h2' (by simp)
  · by_cases hc : (read_body_step r cbs).cancelled = true
    · have he : process_body r cbs total evs
          = ProcessOutcome.finished ⟨none, evs ++ (read_body_step r cbs).events⟩ := by
        unfold process_body; rw [if_neg ht]
        simp only [hc, if_true]
      rw [he] at h2
      exact absurd h2 (by simp [outcome_reader])
    · by_cases hd : (read_body_step r cbs).read_done = true
      · have he : process_body r cbs total evs = ProcessOutcome.finished
            ⟨none, evs ++ (read_body_step r cbs).events
              ++ (issue_final_callback (read_body_step r cbs).reader cbs).2⟩ := by
          unfold process_body; rw [if_neg ht]
          simp only [hc, hd, if_true, if_false, Bool.false_eq_true]
        rw [he] at h2
        exact absurd h2 (by simp [outcome_reader])
      · have he : process_body r cbs total evs = ProcessOutcome.continue_reading
            (read_body_step r cbs).reader (evs ++ (read_body_step r cbs).events) := by
          unfold process_body; rw [if_neg ht]
          simp only [hc, hd, if_false, Bool.false_eq_true]
        rw [he] at h2
        simp only [outcome_reader, Option.some.injEq] at h2
        rw [← h2]
        exact read_body_step_inv r cbs h

theorem process_read_inv (r : SoupReader) (cbs : ReadCbs) (total : Nat)
    (h : ReaderInv r) (r' : SoupReader)
    (h2 : outcome_reader (process_read r cbs total) = some r') : ReaderInv r' := by
  by_cases hh : r.header_len = 0
  · by_cases hidx : soup_substring_index r.recv_buf crlfcrlf < 0
    · have he : process_read r cbs total = ProcessOutcome.finished ⟨some r, []⟩ := by
        unfold process_read; rw [if_pos hh, if_pos hidx]
      rw [he] at h2
      simp only [outcome_reader, Option.some.injEq] at h2
      rw [← h2]; exact h
    · cases hcb : cbs.headers_done_cb with
      | some hcbf =>
        by_cases hend : (hcbf (r.recv_buf.take
            ((soup_substring_index r.recv_buf crlfcrlf).toNat + 4))).1
            = SoupTransferDone.SOUP_TRANSFER_END
        · have he : process_read r cbs total = ProcessOutcome.finished
              ⟨none, [ReadEvent.headers_done (r.recv_buf.take
                ((soup_substring_index r.recv_buf crlfcrlf).toNat + 4))]⟩ := by
            unfold process_read; rw [if_pos hh, if_neg hidx, hcb]
            simp only [hend, if_true]
          rw [he] at h2
          exact absurd h2 (by simp [outcome_reader])
        · have he : process_read r cbs total = process_body
              { r with
                encoding := (hcbf (r.recv_buf.take
                  ((soup_substring_index r.recv_buf crlfcrlf).toNat + 4))).2.1,
                content_length := (hcbf (r.recv_buf.take
                  ((soup_substring_index r.recv_buf crlfcrlf).toNat + 4))).2.2,
                recv_buf := remove_block_at_index r.recv_buf 0
                  ((soup_substring_index r.recv_buf crlfcrlf).toNat + 4),
                header_len := (soup_substring_index r.recv_buf crlfcrlf).toNat + 4 }
              cbs total
              [ReadEvent.headers_done (r.recv_buf.take
                ((soup_substring_index r.recv_buf crlfcrlf).toNat + 4))] := by
            unfold process_read; rw [if_pos hh, if_neg hidx, hcb]
            simp only [hend, if_false, Bool.false_eq_true]
          rw [he] at h2
          exact process_body_inv _ cbs total _ (fun _ => Nat.succ_pos _) r' h2
      | none =>
        have he : process_read r cbs total = process_body
            { r with
              recv_buf := remove_block_at_index r.recv_buf 0
                ((soup_substring_index r.recv_buf crlfcrlf).toNat + 4),
              header_len := (soup_substring_index r.recv_buf crlfcrlf).toNat + 4 }
            cbs total [] := by
          unfold process_read; rw [if_pos hh, if_neg hidx, hcb]
        rw [he] at h2
        exact process_body_inv _ cbs total _ (fun _ => Nat.succ_pos _) r' h2
  · have he : process_read r cbs total = process_body r cbs total [] := by
      unfold process_read; rw [if_neg hh]
    rw [he] at h2
    exact process_body_inv r cbs total [] h r' h2

theorem soup_transfer_read_error_cb_reader (r : SoupReader) (cbs : ReadCbs) :
    (soup_transfer_read_error_cb r cbs).reader = none := by
  unfold soup_transfer_read_error_cb
  by_cases henc : r.encoding = SoupTransferEncoding.SOUP_TRANSFER_UNKNOWN
  · rw [if_pos henc]
  · rw [if_neg henc]

theorem read_loop_inv (script : List ReadOutcome) :
    ∀ (total : Nat) (r : SoupReader) (evs : List ReadEvent) (cbs : ReadCbs)
      (r' : SoupReader), ReaderInv r →
      (read_loop script total r evs cbs).reader = some r' → ReaderInv r' := by
  induction script with
  | nil =>
    intro total r evs cbs r' h h2
    cases total with
    | zero =>
      have h2' : some r = some r' := h2
      have hr : r = r' := by injection h2'
      rw [← hr]; exact h
    | succ t =>
      cases hres : process_read r cbs (Nat.succ t) with
      | finished res =>
        have he : read_loop [] (Nat.succ t) r evs cbs
            = ⟨res.reader, evs ++ res.events⟩ := by
          unfold read_loop; rw [hres]
        rw [he] at h2
        exact process_read_inv r cbs (Nat.succ t) h r' (by rw [hres]; exact h2)
      | continue_reading r1 evs1 =>
        have he : read_loop [] (Nat.succ t) r evs cbs = ⟨some r1, evs ++ evs1⟩ := by
          unfold read_loop; rw [hres]
        rw [he] at h2
        have hr1 : r1 = r' := by injection h2
        rw [← hr1]
        exact process_read_inv r cbs (Nat.succ t) h r1 (by rw [hres]; rfl)
  | cons o rest ih =>
    intro total r evs cbs r' h h2
    cases o with
    | again =>
      cases total with
      | zero =>
        have h2' : some r = some r' := h2
        have hr : r = r' := by injection h2'
        rw [← hr]; exact h
      | succ t =>
        cases hres : process_read r cbs (Nat.succ t) with
        | finished res =>
          have he : read_loop (ReadOutcome.again :: rest) (Nat.succ t) r evs cbs
              = ⟨res.reader, evs ++ res.events⟩ := by
            unfold read_loop; rw [hres]
          rw [he] at h2
          exact process_read_inv r cbs (Nat.succ t) h r' (by rw [hres]; exact h2)
        | continue_reading r1 evs1 =>
          have hrl : read_loop (ReadOutcome.again :: rest) (Nat.succ t) r evs cbs
              = (match process_read r cbs (Nat.succ t) with
                | ProcessOutcome.finished res =>
                    (⟨res.reader, evs ++ res.events⟩ : ReadCbResult)
                | ProcessOutcome.continue_reading r1 evs1 =>
                    read_loop rest 0 r1 (evs ++ evs1) cbs) := rfl
          rw [hrl, hres] at h2
          exact ih 0 r1 (evs ++ evs1) cbs r'
            (process_read_inv r cbs (Nat.succ t) h r1 (by rw [hres]; rfl)) h2
    | err =>
      cases total with
      | zero =>
        have h2' : (soup_transfer_read_error_cb r cbs).reader = some r' := h2
        rw [soup_transfer_read_error_cb_reader] at h2'
        exact absurd h2' (by simp)
      | succ t =>
        cases hres : process_read r cbs (Nat.succ t) with
        | finished res =>
          have he : read_loop (ReadOutcome.err :: rest) (Nat.succ t) r evs cbs
              = ⟨res.reader, evs ++ res.events⟩ := by
            unfold read_loop; rw [hres]
          rw [he] at h2
          exact process_read_inv r cbs (Nat.succ t) h r' (by rw [hres]; exact h2)
        | continue_reading r1 evs1 =>
          have hrl : read_loop (ReadOutcome.err :: rest) (Nat.succ t) r evs cbs
              = (match process_read r cbs (Nat.succ t) with
                | ProcessOutcome.finished res =>
                    (⟨res.reader, evs ++ res.events⟩ : ReadCbResult)
                | ProcessOutcome.continue_reading r1 evs1 =>
                    read_loop rest 0 r1 (evs ++ evs1) cbs) := rfl
          rw [hrl, hres] at h2
          exact ih 0 r1 (evs ++ evs1) cbs r'
            (process_read_inv r cbs (Nat.succ t) h r1 (by rw [hres]; rfl)) h2
    | ok bytes =>
      cases bytes with
      | nil =>
        cases hres : process_read r cbs total with
        | finished res =>
          have he : read_loop (ReadOutcome.ok [] :: rest) total r evs cbs
              = ⟨res.reader, evs ++ res.events⟩ := by
            unfold read_loop; rw [hres]
          rw [he] at h2
          exact process_read_inv r cbs total h r' (by rw [hres]; exact h2)
        | continue_reading r1 evs1 =>
          have hrl : read_loop (ReadOutcome.ok [] :: rest) total r evs cbs
              = (match process_read r cbs total with
                | ProcessOutcome.finished res =>
                    (⟨res.reader, evs ++ res.events⟩ : ReadCbResult)
                | ProcessOutcome.continue_reading r1 evs1 =>
                    read_loop rest 0 r1 (evs ++ evs1) cbs) := rfl
          rw [hrl, hres] at h2
          exact ih 0 r1 (evs ++ evs1) cbs r'
            (process_read_inv r cbs total h r1 (by rw [hres]; rfl)) h2
      | cons b bs =>
        have h2' : (read_loop rest (total + (b :: bs).length)
            { r with recv_buf := r.recv_buf ++ (b :: bs) } evs cbs).reader = some r' := h2
        exact ih (total + (b :: bs).length) _ evs cbs r' (reader_inv_set_buf r _ h) h2'

/-- Every reader surviving a readable-handler invocation keeps the
invariant (readers start with it by `reader_inv_init`). -/
theorem reader_inv_preserved (r : SoupReader) (cbs : ReadCbs)
    (script : List ReadOutcome) (r' : SoupReader) (h : ReaderInv r)
    (h2 : (soup_transfer_read_cb r cbs script).reader = some r') : ReaderInv r' :=
  read_loop_inv script 0 r [] cbs r' h h2

/-- C5: on a channel error or hangup with a non-Unknown encoding, a
reachable reader (one satisfying the reachability invariant) fires the
error callback exactly once, with `body_started` equal to
`header_len > 0 && recv_buf.len > header_len` evaluated at the start of the
handler, and is then cancelled. -/
theorem c5_error_cb_body_started (r : SoupReader) (cbs : ReadCbs)
    (hInv : ReaderInv r)
    (hEnc : r.encoding ≠ SoupTransferEncoding.SOUP_TRANSFER_UNKNOWN)
    (hCb : cbs.error_cb = true) :
    soup_transfer_read_error_cb r cbs
      = ⟨none, [ReadEvent.error
          (decide (0 < r.header_len) && decide (r.header_len < r.recv_buf.length))]⟩ := by
  have hl := hInv hEnc
  unfold soup_transfer_read_error_cb
  rw [if_neg hEnc, hCb]
  simp [decide_eq_true hl]

/-- C5 witness: a chunked reader with 4 header bytes and 5 buffered bytes
reports `body_started = true`. -/
theorem c5_error_cb_body_started_witness :
    soup_transfer_read_error_cb c5_reader c3_cbs
      = ⟨none, [ReadEvent.error true]⟩ :=
  c5_error_cb_body_started c5_reader c3_cbs (fun _ => by decide) (by decide) (by decide)

/-- C6: `read_content_length` reports the body complete exactly when the
remaining expected content length equals the current receive-buffer length
(both viewed at the step's return), and a transfer declaring
`ContentLength(0)` completes immediately after the headers with a final
delivery and no body-chunk callback. -/
theorem c6_content_length_completion :
    (∀ (r : SoupReader) (cbs : ReadCbs),
        (read_content_length r cbs).read_done
          = decide ((read_content_length r cbs).reader.content_length
              = (read_content_length r cbs).reader.recv_buf.length)) ∧
    soup_transfer_read_cb (soup_transfer_read false) c6_cbs
        [ReadOutcome.ok [13, 10, 13, 10], ReadOutcome.again]
      = ⟨none, [ReadEvent.headers_done [13, 10, 13, 10], ReadEvent.done []]⟩ := by
  constructor
  · intro r cbs
    unfold read_content_length
    by_cases h0 : r.recv_buf.length = 0
    · simp [h0]
    · by_cases hc : (issue_chunk_callback r r.recv_buf r.recv_buf.length cbs).cancelled = true
      · simp [h0, hc]
      · by_cases ho : (issue_chunk_callback r r.recv_buf
            r.recv_buf.length cbs).reader.overwrite_chunks = true
        · simp [h0, hc, ho]
        · simp [h0, hc, ho]
  · decide

theorem chunk_events_nonzero_append (a b : List ReadEvent) :
    chunk_events_nonzero (a ++ b) = (chunk_events_nonzero a && chunk_events_nonzero b) := by
  simp [chunk_events_nonzero, List.all_append]

theorem issue_chunk_callback_zero (r : SoupReader) (data : List Nat) (cbs : ReadCbs) :
    (issue_chunk_callback r data 0 cbs).events = [] := by
  unfold issue_chunk_callback
  cases cbs.read_chunk_cb with
  | none => rfl
  | some cb => simp

theorem issue_chunk_callback_cen (r : SoupReader) (data : List Nat) (len : Nat)
    (cbs : ReadCbs) :
    chunk_events_nonzero (issue_chunk_callback r data len cbs).events = true := by
  unfold issue_chunk_callback
  cases cbs.read_chunk_cb with
  | none => rfl
  | some cb =>
    by_cases hl : len ≠ 0
    · simp [hl, chunk_events_nonzero]
    · simp [hl, chunk_events_nonzero]

theorem issue_final_callback_cen (r : SoupReader) (cbs : ReadCbs) :
    chunk_events_nonzero (issue_final_callback r cbs).2 = true := by
  unfold issue_final_callback
  by_cases h : cbs.read_done_cb = true
  · simp [h, chunk_events_nonzero]
  · simp [h, chunk_events_nonzero]

theorem read_chunk_cen (r : SoupReader) (cbs : ReadCbs) :
    chunk_events_nonzero (read_chunk r cbs).events = true := by
  unfold read_chunk
  by_cases h0 : (decode_chunk r.chunk_state r.recv_buf).datalen = 0
  · simp [h0, chunk_events_nonzero]
  · by_cases hc : (issue_chunk_callback
        { r with chunk_state := (decode_chunk r.chunk_state r.recv_buf).state,
                 recv_buf := (decode_chunk r.chunk_state r.recv_buf).arr }
        (decode_chunk r.chunk_state r.recv_buf).arr
        (decode_chunk r.chunk_state r.recv_buf).state.idx cbs).cancelled = true
    · simp [h0, hc, issue_chunk_callback_cen]
    · by_cases ho : (issue_chunk_callback
          { r with chunk_state := (decode_chunk r.chunk_state r.recv_buf).state,
                   recv_buf := (decode_chunk r.chunk_state r.recv_buf).arr }
          (decode_chunk r.chunk_state r.recv_buf).arr
          (decode_chunk r.chunk_state r.recv_buf).state.idx cbs).reader.overwrite_chunks = true
      · simp [h0, hc, ho, issue_chunk_callback_cen]
      · simp [h0, hc, ho, issue_chunk_callback_cen]

theorem read_content_length_cen (r : SoupReader) (cbs : ReadCbs) :
    chunk_events_nonzero (read_content_length r cbs).events = true := by
  unfold read_content_length
  by_cases h0 : r.recv_buf.length = 0
  · simp [h0, chunk_events_nonzero]
  · by_cases hc : (issue_chunk_callback r r.recv_buf r.recv_buf.length cbs).cancelled = true
    · simp [h0, hc, issue_chunk_callback_cen]
    · by_cases ho : (issue_chunk_callback r r.recv_buf
          r.recv_buf.length cbs).reader.overwrite_chunks = true
      · simp [h0, hc, ho, issue_chunk_callback_cen]
      · simp [h0, hc, ho, issue_chunk_callback_cen]

theorem read_unknown_cen (r : SoupReader) (cbs : ReadCbs) :
    chunk_events_nonzero (read_unknown r cbs).events = true := by
  unfold read_unknown
  by_cases h0 : r.recv_buf.length = 0
  · simp [h0, chunk_events_nonzero]
  · by_cases hc : (issue_chunk_callback r r.recv_buf r.recv_buf.length cbs).cancelled = true
    · simp [h0, hc, issue_chunk_callback_cen]
    · by_cases ho : (issue_chunk_callback r r.recv_buf
          r.recv_buf.length cbs).reader.overwrite_chunks = true
      · simp [h0, hc, ho, issue_chunk_callback_cen]
      · simp [h0, hc, ho, issue_chunk_callback_cen]

theorem read_body_step_cen (r : SoupReader) (cbs : ReadCbs) :
    chunk_events_nonzero (read_body_step r cbs).events = true := by
  cases henc : r.encoding with
  | SOUP_TRANSFER_UNKNOWN =>
    have he : read_body_step r cbs = read_unknown r cbs := by
      unfold read_body_step; rw [henc]
    rw [he]; exact read_unknown_cen r cbs
  | SOUP_TRANSFER_CONTENT_LENGTH =>
    have he : read_body_step r cbs = read_content_length r cbs := by
      unfold read_body_step; rw [henc]
    rw [he]; exact read_content_length_cen r cbs
  | SOUP_TRANSFER_CHUNKED =>
    have he : read_body_step r cbs = read_chunk r cbs := by
      unfold read_body_step; rw [henc]
    rw [he]; exact read_chunk_cen r cbs

theorem soup_transfer_read_error_cb_cen (r : SoupReader) (cbs : ReadCbs) :
    chunk_events_nonzero (soup_transfer_read_error_cb r cbs).events = true := by
  unfold soup_transfer_read_error_cb
  by_cases henc : r.encoding = SoupTransferEncoding.SOUP_TRANSFER_UNKNOWN
  · rw [if_pos henc]
    exact issue_final_callback_cen r cbs
  · rw [if_neg henc]
    by_cases he : cbs.error_cb = true
    · simp [he, chunk_events_nonzero]
    · simp [he, chunk_events_nonzero]

theorem process_body_cen (r : SoupReader) (cbs : ReadCbs) (total : Nat)
    (evs : List ReadEvent) (h : chunk_events_nonzero evs = true) :
    chunk_events_nonzero (outcome_events (process_body r cbs total evs)) = true := by
  by_cases ht : total = 0
  · have he : process_body r cbs total evs
        = ProcessOutcome.finished ⟨none, evs ++ (issue_final_callback r cbs).2⟩ := by
      unfold process_body; rw [if_pos ht]
    rw [he]
    simp [outcome_events, chunk_events_nonzero_append, h, issue_final_callback_cen]
  · by_cases hc : (read_body_step r cbs).cancelled = true
    · have he : process_body r cbs total evs
          = ProcessOutcome.finished ⟨none, evs ++ (read_body_step r cbs).events⟩ := by
        unfold process_body; rw [if_neg ht]
        simp only [hc, if_true]
      rw [he]
      simp [outcome_events, chunk_events_nonzero_append, h, read_body_step_cen]
    · by_cases hd : (read_body_step r cbs).read_done = true
      · have he : process_body r cbs total evs = ProcessOutcome.finished
            ⟨none, evs ++ (read_body_step r cbs).events
              ++ (issue_final_callback (read_body_step r cbs).reader cbs).2⟩ := by
          unfold process_body; rw [if_neg ht]
          simp only [hc, hd, if_true, if_false, Bool.false_eq_true]
        rw [he]
        simp [outcome_events, chunk_events_nonzero_append, h, read_body_step_cen,
          issue_final_callback_cen]
      · have he : process_body r cbs total evs = ProcessOutcome.continue_reading
            (read_body_step r cbs).reader (evs ++ (read_body_step r cbs).events) := by
          unfold process_body; rw [if_neg ht]
          simp only [hc, hd, if_false, Bool.false_eq_true]
        rw [he]
        simp [outcome_events, chunk_events_nonzero_append, h, read_body_step_cen]

theorem process_read_cen (r : SoupReader) (cbs : ReadCbs) (total : Nat) :
    chunk_events_nonzero (outcome_events (process_read r cbs total)) = true := by
  by_cases hh : r.header_len = 0
  · by_cases hidx : soup_substring_index r.recv_buf crlfcrlf < 0
    · have he : process_read r cbs total = ProcessOutcome.finished ⟨some r, []⟩ := by
        unfold process_read; rw [if_pos hh, if_pos hidx]
      rw [he]
      simp [outcome_events, chunk_events_nonzero]
    · cases hcb : cbs.headers_done_cb with
      | some hcbf =>
        by_cases hend : (hcbf (r.recv_buf.take
            ((soup_substring_index r.recv_buf crlfcrlf).toNat + 4))).1
            = SoupTransferDone.SOUP_TRANSFER_END
        · have he : process_read r cbs total = ProcessOutcome.finished
              ⟨none, [ReadEvent.headers_done (r.recv_buf.take
                ((soup_substring_index r.recv_buf crlfcrlf).toNat + 4))]⟩ := by
            unfold process_read; rw [if_pos hh, if_neg hidx, hcb]
            simp only [hend, if_true]
          rw [he]
          simp [outcome_events, chunk_events_nonzero]
        · have he : process_read r cbs total = process_body
              { r with
                encoding := (hcbf (r.recv_buf.take
                  ((soup_substring_index r.recv_buf crlfcrlf).toNat + 4))).2.1,
                content_length := (hcbf (r.recv_buf.take
                  ((soup_substring_index r.recv_buf crlfcrlf).toNat + 4))).2.2,
                recv_buf := remove_block_at_index r.recv_buf 0
                  ((soup_substring_index r.recv_buf crlfcrlf).toNat + 4),
                header_len := (soup_substring_index r.recv_buf crlfcrlf).toNat + 4 }
              cbs total
              [ReadEvent.headers_done (r.recv_buf.take
                ((soup_substring_index r.recv_buf crlfcrlf).toNat + 4))] := by
            unfold process_read; rw [if_pos hh, if_neg hidx, hcb]
            simp only [hend, if_false, Bool.false_eq_true]
          rw [he]
          exact process_body_cen _ cbs total _ (by simp [chunk_events_nonzero])
      | none =>
        have he : process_read r cbs total = process_body
            { r with
              recv_buf := remove_block_at_index r.recv_buf 0
                ((soup_substring_index r.recv_buf crlfcrlf).toNat + 4),
              header_len := (soup_substring_index r.recv_buf crlfcrlf).toNat + 4 }
            cbs total [] := by
          unfold process_read; rw [if_pos hh, if_neg hidx, hcb]
        rw [he]
        exact process_body_cen _ cbs total _ rfl
  · have he : process_read r cbs total = process_body r cbs total [] := by
      unfold process_read; rw [if_neg hh]
    rw [he]
    exact process_body_cen r cbs total [] rfl

theorem read_loop_cen (script : List ReadOutcome) :
    ∀ (total : Nat) (r : SoupReader) (evs : List ReadEvent) (cbs : ReadCbs),
      chunk_events_nonzero evs = true →
      chunk_events_nonzero (read_loop script total r evs cbs).events = true := by
  induction script with
  | nil =>
    intro total r evs cbs h
    cases total with
    | zero => exact h
    | succ t =>
      cases hres : process_read r cbs (Nat.succ t) with
      | finished res =>
        have he : read_loop [] (Nat.succ t) r evs cbs
            = ⟨res.reader, evs ++ res.events⟩ := by
          unfold read_loop; rw [hres]
        rw [he]
        have hp := process_read_cen r cbs (Nat.succ t)
        rw [hres] at hp
        have hp' : chunk_events_nonzero res.events = true := hp
        simp [chunk_events_nonzero_append, h, hp']
      | continue_reading r1 evs1 =>
        have he : read_loop [] (Nat.succ t) r evs cbs = ⟨some r1, evs ++ evs1⟩ := by
          unfold read_loop; rw [hres]
        rw [he]
        have hp := process_read_cen r cbs (Nat.succ t)
        rw [hres] at hp
        have hp' : chunk_events_nonzero evs1 = true := hp
        simp [chunk_events_nonzero_append, h, hp']
  | cons o rest ih =>
    intro total r evs cbs h
    cases o with
    | again =>
      cases total with
      | zero => exact h
      | succ t =>
        cases hres : process_read r cbs (Nat.succ t) with
        | finished res =>
          have he : read_loop (ReadOutcome.again :: rest) (Nat.succ t) r evs cbs
              = ⟨res.reader, evs ++ res.events⟩ := by
            unfold read_loop; rw [hres]
          rw [he]
          have hp := process_read_cen r cbs (Nat.succ t)
          rw [hres] at hp
          have hp' : chunk_events_nonzero res.events = true := hp
          simp [chunk_events_nonzero_append, h, hp']
        | continue_reading r1 evs1 =>
          have hrl : read_loop (ReadOutcome.again :: rest) (Nat.succ t) r evs cbs
              = (match process_read r cbs (Nat.succ t) with
                | ProcessOutcome.finished res =>
                    (⟨res.reader, evs ++ res.events⟩ : ReadCbResult)
                | ProcessOutcome.continue_reading r1 evs1 =>
                    read_loop rest 0 r1 (evs ++ evs1) cbs) := rfl
          rw [hrl, hres]
          have hp := process_read_cen r cbs (Nat.succ t)
          rw [hres] at hp
          have hp' : chunk_events_nonzero evs1 = true := hp
          exact ih 0 r1 (evs ++ evs1) cbs
            (by simp [chunk_events_nonzero_append, h, hp'])
    | err =>
      cases total with
      | zero =>
        have he : read_loop (ReadOutcome.err :: rest) 0 r evs cbs
            = ⟨(soup_transfer_read_error_cb r cbs).reader,
               evs ++ (soup_transfer_read_error_cb r cbs).events⟩ := rfl
        rw [he]
        simp [chunk_events_nonzero_append, h, soup_transfer_read_error_cb_cen]
      | succ t =>
        cases hres : process_read r cbs (Nat.succ t) with
        | finished res =>
          have he : read_loop (ReadOutcome.err :: rest) (Nat.succ t) r evs cbs
              = ⟨res.reader, evs ++ res.events⟩ := by
            unfold read_loop; rw [hres]
          rw [he]
          have hp := process_read_cen r cbs (Nat.succ t)
          rw [hres] at hp
          have hp' : chunk_events_nonzero res.events = true := hp
          simp [chunk_events_nonzero_append, h, hp']
        | continue_reading r1 evs1 =>
          have hrl : read_loop (ReadOutcome.err :: rest) (Nat.succ t) r evs cbs
              = (match process_read r cbs (Nat.succ t) with
                | ProcessOutcome.finished res =>
                    (⟨res.reader, evs ++ res.events⟩ : ReadCbResult)
                | ProcessOutcome.continue_reading r1 evs1 =>
                    read_loop rest 0 r1 (evs ++ evs1) cbs) := rfl
          rw [hrl, hres]
          have hp := process_read_cen r cbs (Nat.succ t)
          rw [hres] at hp
          have hp' : chunk_events_nonzero evs1 = true := hp
          exact ih 0 r1 (evs ++ evs1) cbs
            (by simp [chunk_events_nonzero_append, h, hp'])
    | ok bytes =>
      cases bytes with
      | nil =>
        cases hres : process_read r cbs total with
        | finished res =>
          have he : read_loop (ReadOutcome.ok [] :: rest) total r evs cbs
              = ⟨res.reader, evs ++ res.events⟩ := by
            unfold read_loop; rw [hres]
          rw [he]
          have hp := process_read_cen r cbs total
          rw [hres] at hp
          have hp' : chunk_events_nonzero res.events = true := hp
          simp [chunk_events_nonzero_append, h, hp']
        | continue_reading r1 evs1 =>
          have hrl : read_loop (ReadOutcome.ok [] :: rest) total r evs cbs
              = (match process_read r cbs total with
                | ProcessOutcome.finished res =>
                    (⟨res.reader, evs ++ res.events⟩ : ReadCbResult)
                | ProcessOutcome.continue_reading r1 evs1 =>
                    read_loop rest 0 r1 (evs ++ evs1) cbs) := rfl
          rw [hrl, hres]
          have hp := process_read_cen r cbs total
          rw [hres] at hp
          have hp' : chunk_events_nonzero evs1 = true := hp
          exact ih 0 r1 (evs ++ evs1) cbs
            (by simp [chunk_events_nonzero_append, h, hp'])
      | cons b bs =>
        exact ih (total + (b :: bs).length)
          { r with recv_buf := r.recv_buf ++ (b :: bs) } evs cbs h

/-- C9: the body-chunk callback is never invoked with a zero-length buffer:
`issue_chunk_callback` skips the callback entirely when its data length is
0, each of the three body steps only ever emits chunk deliveries with a
non-zero length, and consequently every readable-handler invocation's whole
trace is free of zero-length chunk deliveries. -/
theorem c9_no_zero_length_chunk_delivery :
    ∀ (r : SoupReader) (cbs : ReadCbs) (data : List Nat) (script : List ReadOutcome),
      (issue_chunk_callback r data 0 cbs).events = [] ∧
      chunk_events_nonzero (read_chunk r cbs).events = true ∧
      chunk_events_nonzero (read_content_length r cbs).events = true ∧
      chunk_events_nonzero (read_unknown r cbs).events = true ∧
      chunk_events_nonzero (soup_transfer_read_cb r cbs script).events = true :=
  fun r cbs data script =>
    ⟨issue_chunk_callback_zero r data cbs, read_chunk_cen r cbs,
     read_content_length_cen r cbs, read_unknown_cen r cbs,
     read_loop_cen script 0 r [] cbs rfl⟩

